import Mathlib

/-!
# Verification of the task-notification webhook (date-aggregated revision)

Shallow embedding of the Supabase Edge Function that keeps OneSignal
scheduled reminders consistent with the `tasks` table, via the
`task_notifications` tracking table.

Modelling conventions:

* Calendar dates are integers (day numbers).  The source uses ISO
  `YYYY-MM-DD` strings; all operations on them are equality, "the day
  before" (exact subtraction of one day) and the `tag LIKE 'date%'`
  filter, which for fixed-length date strings coincides with equality on
  the date component, so an integer day index is a faithful model.
* Instants are integers (minutes).  `israelTime` builds the instant of a
  wall-clock time at the fixed +02:00 offset used by the source.
* Every external HTTP call consumes one `Outcome` from an oracle stream
  (`provOracle` for OneSignal calls, `storeOracle` for Supabase calls);
  an exhausted oracle means the call succeeds.  `Outcome.thrown` models a
  rejected `fetch`/`res.json()` (a thrown exception); `Outcome.httpErr`
  models a completed response that is non-2xx or of unexpected shape.
* Exceptions are modelled with `Except`: functions whose source body has
  no `try`/`catch` around a fetch propagate `Outcome.thrown` as
  `Except.error` (carrying the world at throw time); functions with
  `try`/`catch` absorb it, exactly as in the source.
* The `Promise.all` over cancellations is sequentialised in row order.
-/

namespace Webhook

inductive Assignee where
  | noam
  | omer
  | both
deriving DecidableEq, Repr

structure Task where
  id : Nat
  title : String
  notes : String
  assignee : Assignee
  due_date : Option Int
  is_complete : Bool
  created_at : String
deriving DecidableEq, Repr

inductive EventType where
  | INSERT
  | UPDATE
  | DELETE
deriving DecidableEq, Repr

structure WebhookPayload where
  type : EventType
  table : String
  record : Option Task
  old_record : Option Task
deriving DecidableEq, Repr

/-- An inbound HTTP request: method, and the parsed JSON body
(`none` models a body on which `req.json()` throws). -/
structure Request where
  method : String
  body : Option WebhookPayload
deriving DecidableEq, Repr

/-- One row of the `task_notifications` tracking table.  The source
stores `tag = "<date>:<slot>"`; we keep the two components separate
(see header: the `LIKE '<date>%'` filter is equality on `date`). -/
structure NotifRecord where
  task_id : Nat
  notification_id : Nat
  date : Int
  slot : String
deriving DecidableEq, Repr

/-- Result of one external HTTP call. -/
inductive Outcome where
  | ok
  | httpErr
  | thrown
deriving DecidableEq, Repr

structure World where
  now : Int
  tasks : List Task
  store : List NotifRecord
  nextId : Nat
  scheduled : List (Nat × Int)
  cancelCalls : List Nat
  sentNow : List (String × String)
  provOracle : List Outcome
  storeOracle : List Outcome
deriving DecidableEq, Repr

inductive RespBody where
  | methodNotAllowed
  | success
  | error (msg : String)
deriving DecidableEq, Repr

structure Response where
  status : Nat
  body : RespBody
deriving DecidableEq, Repr

/-- `israelTime dateStr hours minutes` of the source: the instant (in
minutes) of `hours:minutes` on day `d` at the fixed +02:00 offset. -/
def israelTime (d h m : Int) : Int :=
  d * 1440 + h * 60 + m - 120

def takeProv (w : World) : Outcome × World :=
  match w.provOracle with
  | [] => (Outcome.ok, w)
  | o :: rest => (o, { w with provOracle := rest })

def takeStore (w : World) : Outcome × World :=
  match w.storeOracle with
  | [] => (Outcome.ok, w)
  | o :: rest => (o, { w with storeOracle := rest })

/-- `sendNotification(title, body, sendAfter?)` of the source: refuses a
past `sendAfter` before any I/O; otherwise one OneSignal POST whose
failure modes are all absorbed by the surrounding `try`/`catch` or the
`data.id` check. -/
def sendNotification (title body : String) (sendAfter : Option Int) (w : World) :
    Option Nat × World :=
  match sendAfter with
  | some t =>
    if t ≤ w.now then (none, w)
    else
      let (o, w) := takeProv w
      match o with
      | Outcome.ok =>
        (some w.nextId,
          { w with nextId := w.nextId + 1, scheduled := w.scheduled ++ [(w.nextId, t)] })
      | Outcome.httpErr => (none, w)
      | Outcome.thrown => (none, w)
  | none =>
    let (o, w) := takeProv w
    match o with
    | Outcome.ok =>
      (some w.nextId,
        { w with nextId := w.nextId + 1, sentNow := w.sentNow ++ [(title, body)] })
    | Outcome.httpErr => (none, w)
    | Outcome.thrown => (none, w)

/-- `cancelOneSignalNotification(id)` of the source: one DELETE to
OneSignal, fully wrapped in `try`/`catch`; the response body is never
inspected. -/
def cancelOneSignalNotification (id : Nat) (w : World) : World :=
  let (o, w) := takeProv w
  match o with
  | Outcome.ok =>
    { w with cancelCalls := w.cancelCalls ++ [id],
             scheduled := w.scheduled.filter (fun p => p.1 != id) }
  | Outcome.httpErr => { w with cancelCalls := w.cancelCalls ++ [id] }
  | Outcome.thrown => w

/-- `storeNotificationId(dueDate, notificationId, tag)` of the source:
one Supabase POST with no `try`/`catch`, so a thrown fetch propagates;
the response is never inspected. -/
def storeNotificationId (dueDate : Int) (notificationId : Nat) (tag : String)
    (w : World) : Except (String × World) World :=
  let (o, w) := takeStore w
  match o with
  | Outcome.ok =>
    Except.ok { w with store := w.store ++ [⟨0, notificationId, dueDate, tag⟩] }
  | Outcome.httpErr => Except.ok w
  | Outcome.thrown => Except.error ("fetch failed", w)

/-- The `tag=like.<date>%25` filter of the source (see header). -/
def recordMatchesDate (dueDate : Int) (r : NotifRecord) : Bool :=
  r.date == dueDate

/-- `getTasksForDate(dueDate)` of the source: the
`due_date=eq.<d>&is_complete=eq.false` query; a non-array response is
defensively treated as no rows; a thrown fetch propagates. -/
def getTasksForDate (dueDate : Int) (w : World) :
    Except (String × World) (List Task × World) :=
  let (o, w) := takeStore w
  match o with
  | Outcome.ok =>
    Except.ok (w.tasks.filter (fun t => t.due_date == some dueDate && !t.is_complete), w)
  | Outcome.httpErr => Except.ok ([], w)
  | Outcome.thrown => Except.error ("fetch failed", w)

/-- `cancelAllForDate(dueDate)` of the source: GET the tracked rows for
the date; if any, cancel each at OneSignal and then DELETE the rows.
The two Supabase calls have no `try`/`catch`. -/
def cancelAllForDate (dueDate : Int) (w : World) : Except (String × World) World :=
  let (o, w) := takeStore w
  match o with
  | Outcome.thrown => Except.error ("fetch failed", w)
  | Outcome.httpErr => Except.ok w
  | Outcome.ok =>
    let rows := w.store.filter (recordMatchesDate dueDate)
    if rows.length > 0 then
      let w := rows.foldl (fun w r => cancelOneSignalNotification r.notification_id w) w
      let (o2, w) := takeStore w
      match o2 with
      | Outcome.thrown => Except.error ("fetch failed", w)
      | Outcome.httpErr => Except.ok w
      | Outcome.ok =>
        Except.ok { w with store := w.store.filter (fun r => !recordMatchesDate dueDate r) }
    else Except.ok w

/-- `joinTitles(titles)` of the source (the `pop()` mutation acts on a
fresh array; an empty input would read `undefined` from `pop()`). -/
def joinTitles (titles : List String) : String :=
  if titles.length = 1 then titles.headD ""
  else String.intercalate ", " titles.dropLast ++ " ו" ++ (titles.getLast?.getD "undefined")

/-- `buildSummary(tasks)` of the source. -/
def buildSummary (tasks : List Task) : String :=
  let omerTasks := tasks.filter (fun t => t.assignee == Assignee.omer)
  let noamTasks := tasks.filter (fun t => t.assignee == Assignee.noam)
  let bothTasks := tasks.filter (fun t => t.assignee == Assignee.both)
  let parts : List String :=
    (if omerTasks.length > 0 then ["עומר צריכה " ++ joinTitles (omerTasks.map (fun t => t.title))] else []) ++
    (if noamTasks.length > 0 then ["נועם צריך " ++ joinTitles (noamTasks.map (fun t => t.title))] else []) ++
    (if bothTasks.length > 0 then ["שניכם צריכים " ++ joinTitles (bothTasks.map (fun t => t.title))] else [])
  String.intercalate " ו" parts

/-- Helper for the three `if (id) storeNotificationId(...)` blocks. -/
def maybeStore (dueDate : Int) (idOpt : Option Nat) (tag : String) (w : World) :
    Except (String × World) World :=
  match idOpt with
  | some id => storeNotificationId dueDate id tag w
  | none => Except.ok w

/-- `rescheduleRemindersForDate(dueDate)` of the source: cancel all for
the date, re-read the active tasks, stop if none, otherwise schedule the
three slot notifications and track each successful one. -/
def rescheduleRemindersForDate (dueDate : Int) (w : World) :
    Except (String × World) World :=
  match cancelAllForDate dueDate w with
  | Except.error e => Except.error e
  | Except.ok w =>
  match getTasksForDate dueDate w with
  | Except.error e => Except.error e
  | Except.ok (tasks, w) =>
  if tasks.length = 0 then Except.ok w
  else
    let summary := buildSummary tasks
    let (ebId, w) := sendNotification "הכנות למחר" ("מחר, " ++ summary)
      (some (israelTime (dueDate - 1) 21 0)) w
    match maybeStore dueDate ebId "evening-before" w with
    | Except.error e => Except.error e
    | Except.ok w =>
    let (moId, w) := sendNotification "צהריים טובים מיילאבה ☀️" ("היום, " ++ summary)
      (some (israelTime dueDate 10 0)) w
    match maybeStore dueDate moId "morning-of" w with
    | Except.error e => Except.error e
    | Except.ok w =>
    let (eoId, w) := sendNotification "תזכורת אחרונה להיום!! 🔔" ("היום, " ++ summary)
      (some (israelTime dueDate 18 30)) w
    maybeStore dueDate eoId "evening-of" w

/-- The per-assignee completion text of `sendCompletionNotification`. -/
def completionText (task : Task) : String :=
  match task.assignee with
  | Assignee.omer => "עומר סיימה " ++ task.title ++ "!"
  | Assignee.noam => "נועם סיים " ++ task.title ++ "!"
  | Assignee.both => "סיימתם " ++ task.title ++ "!"

/-- `sendCompletionNotification(task)` of the source: one immediate
(non-scheduled) OneSignal notification. -/
def sendCompletionNotification (task : Task) (w : World) : World :=
  (sendNotification "כל הכבוד 🥳" (completionText task) none w).2

/-- `old_record?.is_complete` coerced to boolean (`undefined` is falsy). -/
def oldIsComplete (old : Option Task) : Bool :=
  match old with
  | some o => o.is_complete
  | none => false

/-- JS truthiness of a `due_date` field. -/
def hasDue (d : Option Int) : Bool := d.isSome

/-- `record.due_date !== old_record?.due_date`: against a missing old
snapshot the right side is `undefined`, which differs from every
string-or-null left side. -/
def dueDiffers (record : Task) (old : Option Task) : Bool :=
  match old with
  | none => true
  | some o => record.due_date != o.due_date

/-- `record.title !== old_record?.title || record.assignee !== old_record?.assignee`. -/
def titleOrAssigneeDiffers (record : Task) (old : Option Task) : Bool :=
  match old with
  | none => true
  | some o => record.title != o.title || record.assignee != o.assignee

/-- `datesToReschedule.add` (insertion-ordered set). -/
def addDate (s : List Int) (d : Int) : List Int :=
  if d ∈ s then s else s ++ [d]

structure UpdatePlan where
  sendCompletion : Bool
  dates : List Int
deriving DecidableEq, Repr

/-- The UPDATE arm of the handler's `switch`, as a pure derivation of
the affected-date set and the completion flag; mirrors the source's
`break` structure (the two completion-flip branches return early). -/
def updatePlan (record : Task) (old : Option Task) : UpdatePlan :=
  if record.is_complete && !(oldIsComplete old) then
    { sendCompletion := true,
      dates := match record.due_date with | some d => [d] | none => [] }
  else if !record.is_complete && oldIsComplete old && hasDue record.due_date then
    { sendCompletion := false,
      dates := match record.due_date with | some d => [d] | none => [] }
  else
    let s1 : List Int :=
      if dueDiffers record old then
        let sa : List Int :=
          match old with
          | some o => match o.due_date with | some d => addDate [] d | none => []
          | none => []
        match record.due_date with
        | some d => if !record.is_complete then addDate sa d else sa
        | none => sa
      else []
    let s2 : List Int :=
      match record.due_date with
      | some d =>
        if !record.is_complete && titleOrAssigneeDiffers record old then addDate s1 d else s1
      | none => s1
    { sendCompletion := false, dates := s2 }

/-- The INSERT arm: `record?.due_date && !record.is_complete`. -/
def insertDates (record : Option Task) : List Int :=
  match record with
  | some r =>
    match r.due_date with
    | some d => if !r.is_complete then [d] else []
    | none => []
  | none => []

/-- The DELETE arm: `old_record?.due_date`. -/
def deleteDates (old : Option Task) : List Int :=
  match old with
  | some o => match o.due_date with | some d => [d] | none => []
  | none => []

/-- The `for (const date of datesToReschedule)` loop. -/
def reconcileAll (dates : List Int) (w : World) : Except (String × World) World :=
  match dates with
  | [] => Except.ok w
  | d :: rest =>
    match rescheduleRemindersForDate d w with
    | Except.error e => Except.error e
    | Except.ok w => reconcileAll rest w

/-- The body of the handler's `try` block: the `switch` on the event
type followed by the reconciliation loop. -/
def dispatch (p : WebhookPayload) (w : World) : Except (String × World) World :=
  match p.type with
  | EventType.INSERT => reconcileAll (insertDates p.record) w
  | EventType.UPDATE =>
    match p.record with
    | none => Except.ok w
    | some r =>
      let plan := updatePlan r p.old_record
      let w := if plan.sendCompletion then sendCompletionNotification r w else w
      reconcileAll plan.dates w
  | EventType.DELETE => reconcileAll (deleteDates p.old_record) w

/-- `Deno.serve` of the source: 405 on non-POST, 200 `{success: true}`
on normal completion, 500 with the error message on an uncaught
exception while parsing (`body = none`) or dispatching. -/
def handleRequest (req : Request) (w : World) : Response × World :=
  if req.method ≠ "POST" then (⟨405, RespBody.methodNotAllowed⟩, w)
  else
    match req.body with
    | none => (⟨500, RespBody.error "invalid json"⟩, w)
    | some p =>
      match dispatch p w with
      | Except.ok w => (⟨200, RespBody.success⟩, w)
      | Except.error (msg, w) => (⟨500, RespBody.error msg⟩, w)

/-- The tracking rows whose key belongs to `d`. -/
def recordsFor (d : Int) (store : List NotifRecord) : List NotifRecord :=
  store.filter (recordMatchesDate d)

/-- The active (non-complete) tasks the store query returns for `d`. -/
def activeFor (d : Int) (w : World) : List Task :=
  w.tasks.filter (fun t => t.due_date == some d && !t.is_complete)

/-- Bookkeeping for `reconcile_ok_eval`: the tracking rows a
reconciliation of `d` appends when the active set is non-empty, given
the id counter and the current instant (a slot is stored exactly when
its send time is still in the future). -/
def addedRecords (d : Int) (nid : Nat) (now : Int) : List NotifRecord :=
  let ebN : Nat := if israelTime (d - 1) 21 0 ≤ now then 0 else 1
  let moN : Nat := if israelTime d 10 0 ≤ now then 0 else 1
  (if israelTime (d - 1) 21 0 ≤ now then [] else [⟨0, nid, d, "evening-before"⟩]) ++
  (if israelTime d 10 0 ≤ now then [] else [⟨0, nid + ebN, d, "morning-of"⟩]) ++
  (if israelTime d 18 30 ≤ now then [] else [⟨0, nid + ebN + moN, d, "evening-of"⟩])

/-- Bookkeeping for `reconcile_ok_eval`: the provider notifications a
reconciliation of `d` schedules when the active set is non-empty. -/
def addedSched (d : Int) (nid : Nat) (now : Int) : List (Nat × Int) :=
  let ebN : Nat := if israelTime (d - 1) 21 0 ≤ now then 0 else 1
  let moN : Nat := if israelTime d 10 0 ≤ now then 0 else 1
  (if israelTime (d - 1) 21 0 ≤ now then [] else [(nid, israelTime (d - 1) 21 0)]) ++
  (if israelTime d 10 0 ≤ now then [] else [(nid + ebN, israelTime d 10 0)]) ++
  (if israelTime d 18 30 ≤ now then [] else [(nid + ebN + moN, israelTime d 18 30)])

/-- The spec invariant: at most one live tracking record per
`(date, tag)` key. -/
def atMostOnePerKey (store : List NotifRecord) : Prop :=
  ∀ d slot, (store.filter (fun r => recordMatchesDate d r && r.slot == slot)).length ≤ 1

/-- One webhook delivery together with the external data visible to it
(the task table and the clock at delivery time). -/
structure Delivery where
  req : Request
  tasks : List Task
  now : Int

/-- Sequential processing of webhook deliveries; between deliveries the
external task table and the clock may change arbitrarily. -/
def processDeliveries (w : World) : List Delivery → World
  | [] => w
  | dl :: rest =>
    processDeliveries (handleRequest dl.req { w with tasks := dl.tasks, now := dl.now }).2 rest

/-- A concrete task used to exercise the theorems below. -/
def sampleTask : Task :=
  { id := 1, title := "t", notes := "", assignee := Assignee.noam,
    due_date := some 1, is_complete := false, created_at := "" }

/-- A concrete starting world used to exercise the theorems below. -/
def sampleWorld : World :=
  { now := 0, tasks := [sampleTask], store := [], nextId := 0, scheduled := [],
    cancelCalls := [], sentNow := [], provOracle := [], storeOracle := [] }

/-- The updated row of the C2 counterexample: due date moved to day 2
and completion flag flipped to `true` in the same event. -/
def cexRecord : Task :=
  { id := 1, title := "t", notes := "", assignee := Assignee.noam,
    due_date := some 2, is_complete := true, created_at := "" }

/-- The old row of the C2 counterexample: due on day 1, not complete. -/
def cexOld : Task :=
  { id := 1, title := "t", notes := "", assignee := Assignee.noam,
    due_date := some 1, is_complete := false, created_at := "" }

/-- Modelled from the spec's title-joining rule, for comparison with
the source's `joinTitles`: one title → itself; two titles → the two
joined by the connective; three or more → comma-separated with a final
connective before the last. -/
def joinTitlesSpec (titles : List String) : String :=
  match titles with
  | [] => ""
  | [a] => a
  | [a, b] => a ++ " ו" ++ b
  | ts => String.intercalate ", " ts.dropLast ++ " ו" ++ (ts.getLast?.getD "")

/-- Modelled from the spec's summary rule, for comparison with the
source's `buildSummary`: group by assignee into the three groups,
render each non-empty group as an assignee-labelled sentence with its
verb form, and join the non-empty sentences with the connective. -/
def summarizeSpec (tasks : List Task) : String :=
  let groups : List (Assignee × String) :=
    [(Assignee.omer, "עומר צריכה "), (Assignee.noam, "נועם צריך "),
     (Assignee.both, "שניכם צריכים ")]
  let sentences := groups.filterMap (fun g =>
    let titles := (tasks.filter (fun t => t.assignee == g.1)).map (fun t => t.title)
    if titles.isEmpty then none else some (g.2 ++ joinTitlesSpec titles))
  String.intercalate " ו" sentences

/-- No tracking-store call in this world's future will throw (its
responses may still be non-2xx or of unexpected shape). -/
def storeThrowFree (w : World) : Prop := Outcome.thrown ∉ w.storeOracle

/-! ### Success-path behaviour of the individual I/O wrappers -/

theorem send_past (title body : String) (t : Int) (w : World) (h : t ≤ w.now) :
    sendNotification title body (some t) w = (none, w) := by
  simp [sendNotification, h]

theorem send_future (title body : String) (t : Int) (w : World)
    (hp : w.provOracle = []) (h : w.now < t) :
    sendNotification title body (some t) w =
      (some w.nextId,
        { w with nextId := w.nextId + 1, scheduled := w.scheduled ++ [(w.nextId, t)] }) := by
  simp [sendNotification, takeProv, hp, not_le.mpr h]

theorem send_now_ok (title body : String) (w : World) (hp : w.provOracle = []) :
    sendNotification title body none w =
      (some w.nextId,
        { w with nextId := w.nextId + 1, sentNow := w.sentNow ++ [(title, body)] }) := by
  simp [sendNotification, takeProv, hp]

theorem cancel_ok (id : Nat) (w : World) (hp : w.provOracle = []) :
    cancelOneSignalNotification id w =
      { w with cancelCalls := w.cancelCalls ++ [id],
               scheduled := w.scheduled.filter (fun p => p.1 != id) } := by
  simp [cancelOneSignalNotification, takeProv, hp]

theorem foldl_cancel_ok (rows : List NotifRecord) (w : World) (hp : w.provOracle = []) :
    rows.foldl (fun w r => cancelOneSignalNotification r.notification_id w) w =
      { w with
        cancelCalls := w.cancelCalls ++ rows.map (fun r => r.notification_id),
        scheduled := w.scheduled.filter
          (fun p => !(rows.map (fun r => r.notification_id)).contains p.1) } := by
  induction rows generalizing w with
  | nil => simp
  | cons r rs ih =>
    rw [List.foldl_cons, cancel_ok _ _ hp, ih _ (by simpa using hp)]
    simp [List.append_assoc, List.filter_filter, List.contains_cons, Bool.not_or,
      Bool.and_comm, bne, Bool.beq_eq_decide_eq]

theorem storeNotificationId_ok (d : Int) (id : Nat) (tag : String) (w : World)
    (hs : w.storeOracle = []) :
    storeNotificationId d id tag w =
      Except.ok { w with store := w.store ++ [⟨0, id, d, tag⟩] } := by
  simp [storeNotificationId, takeStore, hs]

theorem getTasksForDate_ok (d : Int) (w : World) (hs : w.storeOracle = []) :
    getTasksForDate d w = Except.ok (activeFor d w, w) := by
  simp [getTasksForDate, takeStore, hs, activeFor]

theorem cancelAllForDate_ok (d : Int) (w : World)
    (hp : w.provOracle = []) (hs : w.storeOracle = []) :
    cancelAllForDate d w = Except.ok
      { w with
        store := w.store.filter (fun r => !recordMatchesDate d r),
        scheduled := w.scheduled.filter
          (fun p => !((recordsFor d w.store).map (fun r => r.notification_id)).contains p.1),
        cancelCalls :=
          w.cancelCalls ++ (recordsFor d w.store).map (fun r => r.notification_id) } := by
  obtain ⟨now, tasks, store, nextId, sched, cc, sn, po, so⟩ := w
  simp only at hp hs
  subst hp hs
  simp only [cancelAllForDate, takeStore]
  by_cases hrows : store.filter (recordMatchesDate d) = []
  · have hself : store.filter (fun r => !recordMatchesDate d r) = store := by
      rw [List.filter_eq_self]
      intro a ha
      by_contra hcon
      have : a ∈ store.filter (recordMatchesDate d) :=
        List.mem_filter.mpr ⟨ha, by simpa using hcon⟩
      simp [hrows] at this
    simp [hrows, recordsFor, hself]
  · have hlen : (store.filter (recordMatchesDate d)).length > 0 := by
      cases h : store.filter (recordMatchesDate d) with
      | nil => exact absurd h hrows
      | cons a l => simp [h]
    rw [if_pos hlen, foldl_cancel_ok _ _ rfl]
    simp [recordsFor, takeStore]

/-- Success-path shape of one reconciliation when the date still has
active tasks and all three slot instants are in the future. -/
theorem reconcile_success (d : Int) (w : World)
    (hp : w.provOracle = []) (hs : w.storeOracle = [])
    (ht : activeFor d w ≠ [])
    (h1 : w.now < israelTime (d - 1) 21 0)
    (h2 : w.now < israelTime d 10 0)
    (h3 : w.now < israelTime d 18 30) :
    rescheduleRemindersForDate d w = Except.ok
      { w with
        store := w.store.filter (fun r => !recordMatchesDate d r) ++
          [⟨0, w.nextId, d, "evening-before"⟩, ⟨0, w.nextId + 1, d, "morning-of"⟩,
           ⟨0, w.nextId + 2, d, "evening-of"⟩],
        nextId := w.nextId + 3,
        scheduled := w.scheduled.filter
            (fun p => !((recordsFor d w.store).map (fun r => r.notification_id)).contains p.1) ++
          [(w.nextId, israelTime (d - 1) 21 0), (w.nextId + 1, israelTime d 10 0),
           (w.nextId + 2, israelTime d 18 30)],
        cancelCalls :=
          w.cancelCalls ++ (recordsFor d w.store).map (fun r => r.notification_id) } := by
  obtain ⟨now, tasks, store, nid, sched, cc, sn, po, so⟩ := w
  simp only at hp hs h1 h2 h3
  subst hp hs
  have ht' : tasks.filter (fun t => t.due_date == some d && !t.is_complete) ≠ [] := ht
  simp only [rescheduleRemindersForDate,
    cancelAllForDate_ok d ⟨now, tasks, store, nid, sched, cc, sn, [], []⟩ rfl rfl]
  simp [getTasksForDate, takeStore, sendNotification, takeProv, maybeStore,
    storeNotificationId, h1.not_le, h2.not_le, h3.not_le, ht', recordsFor,
    List.append_assoc]

/-- Success-path shape of one reconciliation when the date has no
active tasks left: clean-up only. -/
theorem reconcile_empty (d : Int) (w : World)
    (hp : w.provOracle = []) (hs : w.storeOracle = [])
    (ht : activeFor d w = []) :
    rescheduleRemindersForDate d w = Except.ok
      { w with
        store := w.store.filter (fun r => !recordMatchesDate d r),
        scheduled := w.scheduled.filter
          (fun p => !((recordsFor d w.store).map (fun r => r.notification_id)).contains p.1),
        cancelCalls :=
          w.cancelCalls ++ (recordsFor d w.store).map (fun r => r.notification_id) } := by
  obtain ⟨now, tasks, store, nid, sched, cc, sn, po, so⟩ := w
  simp only at hp hs
  subst hp hs
  have ht' : tasks.filter (fun t => t.due_date == some d && !t.is_complete) = [] := ht
  simp only [rescheduleRemindersForDate,
    cancelAllForDate_ok d ⟨now, tasks, store, nid, sched, cc, sn, [], []⟩ rfl rfl]
  simp [getTasksForDate, takeStore, ht', recordsFor]

/-- Full success-path evaluation of one reconciliation with a non-empty
active set, for arbitrary current instants. -/
theorem reconcile_ok_eval (d : Int) (w : World)
    (hp : w.provOracle = []) (hs : w.storeOracle = [])
    (ht : activeFor d w ≠ []) :
    rescheduleRemindersForDate d w = Except.ok
      { w with
        store := w.store.filter (fun r => !recordMatchesDate d r) ++
          addedRecords d w.nextId w.now,
        nextId := w.nextId + (addedRecords d w.nextId w.now).length,
        scheduled := w.scheduled.filter
            (fun p => !((recordsFor d w.store).map (fun r => r.notification_id)).contains p.1) ++
          addedSched d w.nextId w.now,
        cancelCalls :=
          w.cancelCalls ++ (recordsFor d w.store).map (fun r => r.notification_id) } := by
  obtain ⟨now, tasks, store, nid, sched, cc, sn, po, so⟩ := w
  simp only at hp hs
  subst hp hs
  have ht' : tasks.filter (fun t => t.due_date == some d && !t.is_complete) ≠ [] := ht
  simp only [rescheduleRemindersForDate,
    cancelAllForDate_ok d ⟨now, tasks, store, nid, sched, cc, sn, [], []⟩ rfl rfl]
  by_cases hb : israelTime (d - 1) 21 0 ≤ now <;>
  by_cases hm : israelTime d 10 0 ≤ now <;>
  by_cases he : israelTime d 18 30 ≤ now <;>
  simp [getTasksForDate, takeStore, sendNotification, takeProv, maybeStore,
    storeNotificationId, ht', recordsFor, addedRecords, addedSched, hb, hm, he,
    not_le, List.append_assoc]

/-- Success-path reconciliation always returns `ok`, rewrites the
date's tracking rows to at most one per slot, and leaves the task
table, clock, immediate-send log and oracles unchanged. -/
theorem reconcile_ok_shape (d : Int) (w : World)
    (hp : w.provOracle = []) (hs : w.storeOracle = []) :
    ∃ w' added,
      rescheduleRemindersForDate d w = Except.ok w' ∧
      w'.store = w.store.filter (fun r => !recordMatchesDate d r) ++ added ∧
      (∀ r ∈ added, r.date = d) ∧
      (added.map (fun r => r.slot)).Sublist ["evening-before", "morning-of", "evening-of"] ∧
      w'.provOracle = [] ∧ w'.storeOracle = [] ∧ w'.tasks = w.tasks ∧
      w'.now = w.now ∧ w'.sentNow = w.sentNow := by
  by_cases ht : activeFor d w = []
  · refine ⟨_, [], reconcile_empty d w hp hs ht, by simp, by simp, by simp, hp, hs, rfl, rfl, rfl⟩
  · refine ⟨_, addedRecords d w.nextId w.now, reconcile_ok_eval d w hp hs ht,
      rfl, ?_, ?_, hp, hs, rfl, rfl, rfl⟩
    · intro r hr
      simp only [addedRecords] at hr
      rcases List.mem_append.mp hr with hr | hr
      · rcases List.mem_append.mp hr with hr | hr <;> split at hr <;> simp_all
      · split at hr <;> simp_all
    · simp only [addedRecords, List.map_append]
      show List.Sublist (_ ++ _ ++ _) (["evening-before"] ++ ["morning-of"] ++ ["evening-of"])
      refine List.Sublist.append (List.Sublist.append ?_ ?_) ?_ <;> split <;> simp

theorem length_filter_le_one_of_map_nodup {α β : Type} (f : α → β) (l : List α)
    (p : α → Bool) (s : β) (h : (l.map f).Nodup) (hp : ∀ x, p x = true → f x = s) :
    (l.filter p).length ≤ 1 := by
  induction l with
  | nil => simp
  | cons a l ih =>
    simp only [List.map_cons, List.nodup_cons] at h
    by_cases pa : p a = true
    · have hfa : f a = s := hp a pa
      have htail : l.filter p = [] := by
        rw [List.filter_eq_nil_iff]
        intro x hx hbx
        have hfx : f x = f a := (hp x hbx).trans hfa.symm
        exact h.1 (by rw [← hfx]; exact List.mem_map_of_mem f hx)
      simp [List.filter_cons, pa, htail]
    · simp only [List.filter_cons, pa, if_false, Bool.false_eq_true]
      exact ih h.2

theorem inv_step (d : Int) (store added : List NotifRecord)
    (hinv : atMostOnePerKey store)
    (hdates : ∀ r ∈ added, r.date = d)
    (hslots : (added.map (fun r => r.slot)).Sublist
      ["evening-before", "morning-of", "evening-of"]) :
    atMostOnePerKey (store.filter (fun r => !recordMatchesDate d r) ++ added) := by
  intro d' s'
  rw [List.filter_append, List.length_append]
  by_cases hd : d' = d
  · subst hd
    have h1 : (store.filter (fun r => !recordMatchesDate d' r)).filter
        (fun r => recordMatchesDate d' r && r.slot == s') = [] := by
      rw [List.filter_eq_nil_iff]
      intro r hr hmat
      have hneg := (List.mem_filter.mp hr).2
      simp only [Bool.and_eq_true] at hmat
      simp [hmat.1] at hneg
    have h2 : (added.filter (fun r => recordMatchesDate d' r && r.slot == s')).length ≤ 1 := by
      refine length_filter_le_one_of_map_nodup (fun r => r.slot) added _ s'
        (hslots.nodup (by decide)) ?_
      intro x hx
      simp only [Bool.and_eq_true, beq_iff_eq] at hx
      exact hx.2
    simp [h1]
    exact h2
  · have h2 : added.filter (fun r => recordMatchesDate d' r && r.slot == s') = [] := by
      rw [List.filter_eq_nil_iff]
      intro r hr hmat
      simp only [Bool.and_eq_true, recordMatchesDate, beq_iff_eq] at hmat
      exact hd ((hmat.1).symm.trans (hdates r hr))
    have h1 : ((store.filter (fun r => !recordMatchesDate d r)).filter
          (fun r => recordMatchesDate d' r && r.slot == s')).length ≤
        (store.filter (fun r => recordMatchesDate d' r && r.slot == s')).length :=
      List.Sublist.length_le
        (List.Sublist.filter _ (List.filter_sublist store))
    rw [h2]
    simpa using le_trans h1 (hinv d' s')

/-- On the success path the reconciliation loop completes, leaves the
task table, clock and immediate-send log alone, and preserves the
one-record-per-key invariant. -/
theorem reconcileAll_ok (dates : List Int) (w : World)
    (hp : w.provOracle = []) (hs : w.storeOracle = []) :
    ∃ w', reconcileAll dates w = Except.ok w' ∧
      w'.provOracle = [] ∧ w'.storeOracle = [] ∧ w'.tasks = w.tasks ∧
      w'.now = w.now ∧ w'.sentNow = w.sentNow ∧
      (atMostOnePerKey w.store → atMostOnePerKey w'.store) := by
  induction dates generalizing w with
  | nil => exact ⟨w, rfl, hp, hs, rfl, rfl, rfl, id⟩
  | cons d rest ih =>
    obtain ⟨w1, added, hrec, hstore, hdates, hslots, hp1, hs1, htasks1, hnow1, hsn1⟩ :=
      reconcile_ok_shape d w hp hs
    obtain ⟨w', hall, hp', hs', htasks', hnow', hsn', hinv'⟩ := ih w1 hp1 hs1
    refine ⟨w', ?_, hp', hs', htasks'.trans htasks1, hnow'.trans hnow1,
      hsn'.trans hsn1, ?_⟩
    · simp [reconcileAll, hrec, hall]
    · intro hinv
      apply hinv'
      rw [hstore]
      exact inv_step d w.store added hinv hdates hslots

/-- Success-path form of the completion notification. -/
theorem sendCompletion_shape (task : Task) (w : World) (hp : w.provOracle = []) :
    sendCompletionNotification task w =
      { w with nextId := w.nextId + 1,
               sentNow := w.sentNow ++ [("כל הכבוד 🥳", completionText task)] } := by
  simp [sendCompletionNotification, send_now_ok _ _ _ hp]

/-- On the success path the whole dispatch completes without raising. -/
theorem dispatch_shape (p : WebhookPayload) (w : World)
    (hp : w.provOracle = []) (hs : w.storeOracle = []) :
    ∃ w', dispatch p w = Except.ok w' ∧
      w'.provOracle = [] ∧ w'.storeOracle = [] ∧ w'.tasks = w.tasks ∧
      (atMostOnePerKey w.store → atMostOnePerKey w'.store) := by
  cases htype : p.type with
  | INSERT =>
    obtain ⟨w', h, h1, h2, h3, _, _, h6⟩ := reconcileAll_ok (insertDates p.record) w hp hs
    exact ⟨w', by simp [dispatch, htype, h], h1, h2, h3, h6⟩
  | DELETE =>
    obtain ⟨w', h, h1, h2, h3, _, _, h6⟩ := reconcileAll_ok (deleteDates p.old_record) w hp hs
    exact ⟨w', by simp [dispatch, htype, h], h1, h2, h3, h6⟩
  | UPDATE =>
    cases hrec : p.record with
    | none => exact ⟨w, by simp [dispatch, htype, hrec], hp, hs, rfl, id⟩
    | some r =>
      by_cases hcomp : (updatePlan r p.old_record).sendCompletion
      · have hsend := sendCompletion_shape r w hp
        obtain ⟨w', h, h1, h2, h3, _, _, h6⟩ :=
          reconcileAll_ok (updatePlan r p.old_record).dates
            (sendCompletionNotification r w) (by simp [hsend, hp]) (by simp [hsend, hs])
        refine ⟨w', by simp [dispatch, htype, hrec, hcomp, h], h1, h2,
          by simp [h3, hsend], ?_⟩
        intro hinv
        apply h6
        simpa [hsend] using hinv
      · obtain ⟨w', h, h1, h2, h3, _, _, h6⟩ :=
          reconcileAll_ok (updatePlan r p.old_record).dates w hp hs
        exact ⟨w', by simp [dispatch, htype, hrec, hcomp, h], h1, h2, h3, h6⟩

/-- Success-path form of one full request: the handler responds and the
resulting world still has clean oracles; the invariant is preserved. -/
theorem handle_shape (req : Request) (w : World)
    (hp : w.provOracle = []) (hs : w.storeOracle = []) :
    (handleRequest req w).2.provOracle = [] ∧
    (handleRequest req w).2.storeOracle = [] ∧
    (atMostOnePerKey w.store → atMostOnePerKey (handleRequest req w).2.store) := by
  by_cases hm : req.method = "POST"
  · cases hbody : req.body with
    | none =>
      have hrw : handleRequest req w = (⟨500, RespBody.error "invalid json"⟩, w) := by
        simp [handleRequest, hm, hbody]
      rw [hrw]
      exact ⟨hp, hs, id⟩
    | some p =>
      obtain ⟨w', h, h1, h2, _, h6⟩ := dispatch_shape p w hp hs
      have hrw : handleRequest req w = (⟨200, RespBody.success⟩, w') := by
        simp [handleRequest, hm, hbody, h]
      rw [hrw]
      exact ⟨h1, h2, h6⟩
  · have hrw : handleRequest req w = (⟨405, RespBody.methodNotAllowed⟩, w) := by
      simp [handleRequest, hm]
    rw [hrw]
    exact ⟨hp, hs, id⟩

theorem processDeliveries_inv (ds : List Delivery) :
    ∀ w : World, w.provOracle = [] → w.storeOracle = [] →
      atMostOnePerKey w.store → atMostOnePerKey (processDeliveries w ds).store := by
  induction ds with
  | nil => intro w _ _ hinv; exact hinv
  | cons dl rest ih =>
    intro w hp hs hinv
    obtain ⟨h1, h2, h3⟩ := handle_shape dl.req { w with tasks := dl.tasks, now := dl.now }
      (by simpa using hp) (by simpa using hs)
    exact ih _ h1 h2 (h3 (by simpa using hinv))

/-- C1: idempotent reconciliation.  For a fixed due date with a fixed
non-empty active task set, all three slot send-times still in the
future, and all provider and store calls succeeding, running
`rescheduleRemindersForDate` twice in a row leaves exactly three live
tracking records for that date (exactly one per tag, in slot order),
and the second run issues exactly one cancel call per record that was
live before it ran. -/
theorem reconcile_idempotent (d : Int) (w : World)
    (hp : w.provOracle = []) (hs : w.storeOracle = [])
    (ht : activeFor d w ≠ [])
    (h1 : w.now < israelTime (d - 1) 21 0)
    (h2 : w.now < israelTime d 10 0)
    (h3 : w.now < israelTime d 18 30) :
    ∃ w1 w2,
      rescheduleRemindersForDate d w = Except.ok w1 ∧
      rescheduleRemindersForDate d w1 = Except.ok w2 ∧
      (recordsFor d w2.store).map (fun r => r.slot) =
        ["evening-before", "morning-of", "evening-of"] ∧
      (recordsFor d w2.store).length = 3 ∧
      (recordsFor d w1.store).length = 3 ∧
      w2.cancelCalls =
        w1.cancelCalls ++ (recordsFor d w1.store).map (fun r => r.notification_id) := by
  refine ⟨_, _, reconcile_success d w hp hs ht h1 h2 h3,
    reconcile_success d _ hp hs ht h1 h2 h3, ?_, ?_, ?_, ?_⟩ <;>
    simp [recordsFor, recordMatchesDate, List.filter_append, List.filter_filter]

theorem reconcile_idempotent_witness :
    (sampleWorld.provOracle = [] ∧ sampleWorld.storeOracle = [] ∧
      activeFor 1 sampleWorld ≠ [] ∧
      sampleWorld.now < israelTime (1 - 1) 21 0 ∧
      sampleWorld.now < israelTime 1 10 0 ∧
      sampleWorld.now < israelTime 1 18 30) ∧
    (∃ w1 w2,
      rescheduleRemindersForDate 1 sampleWorld = Except.ok w1 ∧
      rescheduleRemindersForDate 1 w1 = Except.ok w2 ∧
      (recordsFor 1 w2.store).map (fun r => r.slot) =
        ["evening-before", "morning-of", "evening-of"] ∧
      (recordsFor 1 w2.store).length = 3 ∧
      (recordsFor 1 w1.store).length = 3 ∧
      w2.cancelCalls =
        w1.cancelCalls ++ (recordsFor 1 w1.store).map (fun r => r.notification_id)) :=
  ⟨⟨rfl, rfl, by decide, by decide, by decide, by decide⟩,
    reconcile_idempotent 1 sampleWorld rfl rfl (by decide) (by decide) (by decide)
      (by decide)⟩

/-- C3: at-most-one-record-per-key invariant.  Starting from an empty
tracking store, over any sequence of sequentially processed deliveries
with all provider and store calls succeeding, the tracking store never
holds more than one record per `(date, tag)` key. -/
theorem at_most_one_record_per_key (ds : List Delivery) (w0 : World)
    (h0 : w0.store = []) (hp : w0.provOracle = []) (hs : w0.storeOracle = []) :
    atMostOnePerKey (processDeliveries w0 ds).store := by
  refine processDeliveries_inv ds w0 hp hs ?_
  rw [h0]
  intro d slot
  simp

theorem at_most_one_record_per_key_witness :
    (sampleWorld.store = [] ∧ sampleWorld.provOracle = [] ∧
      sampleWorld.storeOracle = []) ∧
    atMostOnePerKey (processDeliveries sampleWorld
      [⟨⟨"POST", some ⟨EventType.INSERT, "tasks", some sampleTask, none⟩⟩,
        [sampleTask], 0⟩]).store :=
  ⟨⟨rfl, rfl, rfl⟩,
    at_most_one_record_per_key
      [⟨⟨"POST", some ⟨EventType.INSERT, "tasks", some sampleTask, none⟩⟩,
        [sampleTask], 0⟩] sampleWorld rfl rfl rfl⟩

/-- C5: past-time skip.  `sendNotification` with a scheduled time at or
before the current instant rejects (returns `none`, no state change,
never raises), and on the success path with a future time returns the
provider-assigned id; consequently, reconciling a date whose morning-of
slot has elapsed while the evening-of slot is still future tracks no
`morning-of` record but does track an `evening-of` record. -/
theorem past_time_skip (d : Int) (w : World) (title body : String) (t : Int)
    (hp : w.provOracle = []) (hs : w.storeOracle = [])
    (ht : activeFor d w ≠ [])
    (hm : israelTime d 10 0 ≤ w.now)
    (he : w.now < israelTime d 18 30) :
    (t ≤ w.now → sendNotification title body (some t) w = (none, w)) ∧
    (w.now < t → (sendNotification title body (some t) w).1 = some w.nextId) ∧
    ∃ w', rescheduleRemindersForDate d w = Except.ok w' ∧
      "morning-of" ∉ (recordsFor d w'.store).map (fun r => r.slot) ∧
      "evening-of" ∈ (recordsFor d w'.store).map (fun r => r.slot) := by
  have heb : israelTime (d - 1) 21 0 ≤ w.now := by
    simp only [israelTime] at hm ⊢
    omega
  refine ⟨fun hpast => send_past _ _ _ _ hpast,
    fun hfut => by rw [send_future _ _ _ _ hp hfut], ?_⟩
  refine ⟨_, reconcile_ok_eval d w hp hs ht, ?_, ?_⟩ <;>
    simp [recordsFor, recordMatchesDate, addedRecords, List.filter_append,
      List.filter_filter, heb, hm, he.not_le]

theorem past_time_skip_witness :
    (({ sampleWorld with now := 2000 } : World).provOracle = [] ∧
      ({ sampleWorld with now := 2000 } : World).storeOracle = [] ∧
      activeFor 1 { sampleWorld with now := 2000 } ≠ [] ∧
      israelTime 1 10 0 ≤ ({ sampleWorld with now := 2000 } : World).now ∧
      ({ sampleWorld with now := 2000 } : World).now < israelTime 1 18 30) ∧
    ((0 ≤ ({ sampleWorld with now := 2000 } : World).now →
      sendNotification "a" "b" (some 0) { sampleWorld with now := 2000 } =
        (none, { sampleWorld with now := 2000 })) ∧
    (({ sampleWorld with now := 2000 } : World).now < 0 →
      (sendNotification "a" "b" (some 0) { sampleWorld with now := 2000 }).1 =
        some ({ sampleWorld with now := 2000 } : World).nextId) ∧
    ∃ w', rescheduleRemindersForDate 1 { sampleWorld with now := 2000 } = Except.ok w' ∧
      "morning-of" ∉ (recordsFor 1 w'.store).map (fun r => r.slot) ∧
      "evening-of" ∈ (recordsFor 1 w'.store).map (fun r => r.slot)) :=
  ⟨⟨rfl, rfl, by decide, by decide, by decide⟩,
    past_time_skip 1 { sampleWorld with now := 2000 } "a" "b" 0 rfl rfl
      (by decide) (by decide) (by decide)⟩

/-- C6: empty-date cleanup.  If a date has no active tasks left, the
success-path reconciliation cancels every previously tracked
notification for that date, deletes exactly those tracking records,
schedules nothing new and sends nothing immediately, so the date ends
with zero tracking records and none of its previously tracked
notifications still live; with no prior records every step degenerates
to a no-op rather than an error. -/
theorem empty_date_cleanup (d : Int) (w : World)
    (hp : w.provOracle = []) (hs : w.storeOracle = [])
    (ht : activeFor d w = []) :
    ∃ w', rescheduleRemindersForDate d w = Except.ok w' ∧
      recordsFor d w'.store = [] ∧
      (∀ r ∈ w.store, recordMatchesDate d r = true →
        r.notification_id ∉ w'.scheduled.map (fun p => p.1)) ∧
      w'.nextId = w.nextId ∧ w'.sentNow = w.sentNow ∧
      w'.store = w.store.filter (fun r => !recordMatchesDate d r) ∧
      w'.cancelCalls =
        w.cancelCalls ++ (recordsFor d w.store).map (fun r => r.notification_id) := by
  refine ⟨_, reconcile_empty d w hp hs ht, ?_, ?_, rfl, rfl, rfl, rfl⟩
  · simp [recordsFor, List.filter_filter]
  · intro r hr hmatch hmem
    simp only [List.mem_map] at hmem
    obtain ⟨q, hq_mem, hq_eq⟩ := hmem
    have h2 := (List.mem_filter.mp hq_mem).2
    have hrin : r.notification_id ∈
        (recordsFor d w.store).map (fun r => r.notification_id) :=
      List.mem_map_of_mem _ (List.mem_filter.mpr ⟨hr, hmatch⟩)
    rw [hq_eq] at h2
    simp [List.contains, hrin] at h2

theorem empty_date_cleanup_witness :
    (sampleWorld.provOracle = [] ∧ sampleWorld.storeOracle = [] ∧
      activeFor 5 sampleWorld = []) ∧
    (∃ w', rescheduleRemindersForDate 5 sampleWorld = Except.ok w' ∧
      recordsFor 5 w'.store = [] ∧
      (∀ r ∈ sampleWorld.store, recordMatchesDate 5 r = true →
        r.notification_id ∉ w'.scheduled.map (fun p => p.1)) ∧
      w'.nextId = sampleWorld.nextId ∧ w'.sentNow = sampleWorld.sentNow ∧
      w'.store = sampleWorld.store.filter (fun r => !recordMatchesDate 5 r) ∧
      w'.cancelCalls = sampleWorld.cancelCalls ++
        (recordsFor 5 sampleWorld.store).map (fun r => r.notification_id)) :=
  ⟨⟨rfl, rfl, by decide⟩, empty_date_cleanup 5 sampleWorld rfl rfl (by decide)⟩

theorem addDate_mem_of_mem (s : List Int) (d x : Int) (hx : x ∈ s) :
    x ∈ addDate s d := by
  unfold addDate
  split <;> simp [hx]

theorem addDate_self_mem (s : List Int) (d : Int) : d ∈ addDate s d := by
  unfold addDate
  split <;> simp_all

theorem addDate_nodup (s : List Int) (d : Int) (h : s.Nodup) : (addDate s d).Nodup := by
  unfold addDate
  split <;> simp_all [List.nodup_append]

/-- C2 counterexample: an update that both changes the due date
(day 1 → day 2) and flips the completion flag false→true takes the
completion branch of the UPDATE dispatch and breaks out, so the old
date 1 is NOT in the affected-date set even though the due date
changed — refuting the claim that both dates appear even when a
completion-flip rule fires for the same event. -/
theorem affected_dates_counterexample :
    cexRecord.due_date ≠ cexOld.due_date ∧
    cexOld.due_date = some 1 ∧
    (updatePlan cexRecord (some cexOld)).dates = [2] ∧
    (1 : Int) ∉ (updatePlan cexRecord (some cexOld)).dates := by decide

/-- C2 (amended): for every UPDATE event where the due date changes and
neither completion-flip branch fires (the flag does not flip
false→true, nor true→false with a due date present), both the old date
(if any) and the new date (if present and the task is not complete)
appear in the affected-date set, and the set is duplicate-free, so each
affected date is reconciled exactly once per event. -/
theorem affected_dates_amended (record : Task) (old : Option Task)
    (hb1 : (record.is_complete && !(oldIsComplete old)) = false)
    (hb2 : (!record.is_complete && oldIsComplete old && hasDue record.due_date) = false)
    (hne : dueDiffers record old = true) :
    (∀ o d, old = some o → o.due_date = some d → d ∈ (updatePlan record old).dates) ∧
    (∀ d, record.due_date = some d → record.is_complete = false →
      d ∈ (updatePlan record old).dates) ∧
    (updatePlan record old).dates.Nodup := by
  simp only [updatePlan, hb1, hb2, Bool.false_eq_true, if_false, hne, if_true]
  rcases old with _ | o <;>
    rcases hrd : record.due_date with _ | d2 <;>
    rcases hc : record.is_complete <;>
    simp_all
  all_goals constructor
  all_goals intros
  all_goals (repeat' split)
  all_goals try simp_all
  all_goals try refine ⟨?_, ?_⟩
  all_goals solve_by_elim [addDate_mem_of_mem, addDate_self_mem, addDate_nodup,
    List.nodup_nil]

theorem affected_dates_amended_witness :
    ((({ cexRecord with is_complete := false } : Task).is_complete &&
        !(oldIsComplete (some cexOld))) = false ∧
      (!({ cexRecord with is_complete := false } : Task).is_complete &&
        oldIsComplete (some cexOld) &&
        hasDue ({ cexRecord with is_complete := false } : Task).due_date) = false ∧
      dueDiffers { cexRecord with is_complete := false } (some cexOld) = true) ∧
    ((∀ o d, (some cexOld : Option Task) = some o → o.due_date = some d →
        d ∈ (updatePlan { cexRecord with is_complete := false } (some cexOld)).dates) ∧
      (∀ d, ({ cexRecord with is_complete := false } : Task).due_date = some d →
        ({ cexRecord with is_complete := false } : Task).is_complete = false →
        d ∈ (updatePlan { cexRecord with is_complete := false } (some cexOld)).dates) ∧
      (updatePlan { cexRecord with is_complete := false } (some cexOld)).dates.Nodup) :=
  ⟨⟨by decide, by decide, by decide⟩,
    affected_dates_amended { cexRecord with is_complete := false } (some cexOld)
      (by decide) (by decide) (by decide)⟩

theorem intercalate_singleton (s a : String) : String.intercalate s [a] = a := rfl

theorem joinTitles_eq_spec (ts : List String) (h : ts ≠ []) :
    joinTitles ts = joinTitlesSpec ts := by
  match ts with
  | [a] => simp [joinTitles, joinTitlesSpec]
  | [a, b] => simp [joinTitles, joinTitlesSpec, intercalate_singleton]
  | a :: b :: c :: rest =>
    have hsome : (a :: b :: c :: rest).getLast?.isSome :=
      List.getLast?_isSome.mpr (by simp)
    obtain ⟨x, hx⟩ := Option.isSome_iff_exists.mp hsome
    simp [joinTitles, joinTitlesSpec, hx]

/-- C7: summary builder correctness.  `buildSummary` is a pure function
(its output is determined by its input list alone), and it coincides on
every input with the specification-side summary: group the tasks by
assignee, render each non-empty group as an assignee-labelled sentence
with assignee-specific grammatical agreement, join the titles within a
group by the one/two/three-or-more rule, and join the non-empty group
sentences with the localized connective. -/
theorem summary_builder_correct (tasks : List Task) :
    buildSummary tasks = summarizeSpec tasks := by
  unfold buildSummary summarizeSpec
  simp only [List.filterMap_cons, List.filterMap_nil, List.isEmpty_iff,
    List.map_eq_nil_iff]
  by_cases h1 : tasks.filter (fun t => t.assignee == Assignee.omer) = [] <;>
    by_cases h2 : tasks.filter (fun t => t.assignee == Assignee.noam) = [] <;>
    by_cases h3 : tasks.filter (fun t => t.assignee == Assignee.both) = [] <;>
    simp [h1, h2, h3, List.length_pos, joinTitles_eq_spec]

/-- C8: completion side-effect.  For an UPDATE whose completion flag
flips false→true (old snapshot not complete or missing), on the success
path exactly one immediate notification is sent, with the per-assignee
text of `sendCompletionNotification`; the task's due date (if any) is
the affected date that is reconciled; the three assignee phrasings are
pairwise distinct for any fixed title; and the active set any later
summary is built from never contains a complete task. -/
theorem completion_side_effect (r : Task) (old : Option Task) (w : World)
    (hp : w.provOracle = []) (hs : w.storeOracle = [])
    (hc : r.is_complete = true) (ho : oldIsComplete old = false) :
    (∃ w', handleRequest ⟨"POST", some ⟨EventType.UPDATE, "tasks", some r, old⟩⟩ w =
        (⟨200, RespBody.success⟩, w') ∧
      w'.sentNow = w.sentNow ++ [("כל הכבוד 🥳", completionText r)]) ∧
    (∀ d, r.due_date = some d → (updatePlan r old).dates = [d]) ∧
    (r.due_date = none → (updatePlan r old).dates = []) ∧
    (∀ t : Task, t.assignee = Assignee.omer →
      completionText t = "עומר סיימה " ++ t.title ++ "!") ∧
    (∀ t : Task, t.assignee = Assignee.noam →
      completionText t = "נועם סיים " ++ t.title ++ "!") ∧
    (∀ t : Task, t.assignee = Assignee.both →
      completionText t = "סיימתם " ++ t.title ++ "!") ∧
    (∀ t1 t2 : Task, t1.title = t2.title → t1.assignee ≠ t2.assignee →
      completionText t1 ≠ completionText t2) ∧
    (∀ d : Int, ∀ t ∈ activeFor d w, t.is_complete = false) := by
  have hplan : (updatePlan r old).sendCompletion = true := by
    simp [updatePlan, hc, ho]
  have hw2 := sendCompletion_shape r w hp
  obtain ⟨w', hall, hp', hs', htasks', hnow', hsn', _⟩ :=
    reconcileAll_ok (updatePlan r old).dates (sendCompletionNotification r w)
      (by simp [hw2, hp]) (by simp [hw2, hs])
  have e1 : ("עומר סיימה " : String).length = 11 := by decide
  have e2 : ("נועם סיים " : String).length = 10 := by decide
  have e3 : ("סיימתם " : String).length = 7 := by decide
  refine ⟨⟨w', ?_, ?_⟩, ?_, ?_, ?_, ?_, ?_, ?_, ?_⟩
  · simp [handleRequest, dispatch, hplan, hall]
  · rw [hsn', hw2]
  · intro d hd
    simp [updatePlan, hc, ho, hd]
  · intro hd
    simp [updatePlan, hc, ho, hd]
  · intro t htA
    simp [completionText, htA]
  · intro t htA
    simp [completionText, htA]
  · intro t htA
    simp [completionText, htA]
  · intro t1 t2 hts hne hcontra
    cases ha1 : t1.assignee <;> cases ha2 : t2.assignee <;>
      rw [ha1, ha2] at hne <;> try exact hne rfl
    all_goals {
      simp only [completionText, ha1, ha2] at hcontra
      have hlen := congrArg String.length hcontra
      simp only [String.length_append, e1, e2, e3, hts] at hlen
      omega
    }
  · intro d t htmem
    have := (List.mem_filter.mp htmem).2
    simp only [Bool.and_eq_true, Bool.not_eq_true'] at this
    exact this.2

theorem completion_side_effect_witness :
    (sampleWorld.provOracle = [] ∧ sampleWorld.storeOracle = [] ∧
      cexRecord.is_complete = true ∧ oldIsComplete (some cexOld) = false) ∧
    (∃ w', handleRequest
        ⟨"POST", some ⟨EventType.UPDATE, "tasks", some cexRecord, some cexOld⟩⟩
        sampleWorld = (⟨200, RespBody.success⟩, w') ∧
      w'.sentNow = sampleWorld.sentNow ++ [("כל הכבוד 🥳", completionText cexRecord)]) :=
  ⟨⟨rfl, rfl, rfl, rfl⟩,
    (completion_side_effect cexRecord (some cexOld) sampleWorld rfl rfl rfl rfl).1⟩

/-- C9: HTTP boundary behaviour.  A non-POST request yields 405 without
touching any state; a POST whose body does not parse yields 500 with an
error body; a POST whose dispatch completes normally (including every
no-op branch) yields 200 with the success body; and a POST whose
dispatch raises yields 500 with a body carrying the error message. -/
theorem http_boundary (req : Request) (w : World) :
    (req.method ≠ "POST" →
      handleRequest req w = (⟨405, RespBody.methodNotAllowed⟩, w)) ∧
    (req.method = "POST" → req.body = none →
      handleRequest req w = (⟨500, RespBody.error "invalid json"⟩, w)) ∧
    (∀ p w', req.method = "POST" → req.body = some p → dispatch p w = Except.ok w' →
      handleRequest req w = (⟨200, RespBody.success⟩, w')) ∧
    (∀ p e w', req.method = "POST" → req.body = some p →
      dispatch p w = Except.error (e, w') →
      handleRequest req w = (⟨500, RespBody.error e⟩, w')) := by
  refine ⟨?_, ?_, ?_, ?_⟩ <;> intros <;> simp_all [handleRequest]

theorem http_boundary_witness :
    ("GET" ≠ "POST") ∧
    handleRequest ⟨"GET", none⟩ sampleWorld =
      (⟨405, RespBody.methodNotAllowed⟩, sampleWorld) :=
  ⟨by decide, (http_boundary ⟨"GET", none⟩ sampleWorld).1 (by decide)⟩

/-- C10: null-old-snapshot handling.  An UPDATE whose `old_record` is
null never raises on the success path (200 is returned); the missing
snapshot behaves as a previously not-complete, undated task: the
completion branch fires exactly when the new record is complete (with
the immediate notification sent), and the affected-date set is exactly
the new record's due date, if any. -/
theorem null_old_snapshot (r : Task) (w : World)
    (hp : w.provOracle = []) (hs : w.storeOracle = []) :
    (∃ w', handleRequest ⟨"POST", some ⟨EventType.UPDATE, "tasks", some r, none⟩⟩ w =
      (⟨200, RespBody.success⟩, w')) ∧
    (updatePlan r none).sendCompletion = r.is_complete ∧
    (∀ d, r.due_date = some d → (updatePlan r none).dates = [d]) ∧
    (r.due_date = none → (updatePlan r none).dates = []) ∧
    ((handleRequest ⟨"POST", some ⟨EventType.UPDATE, "tasks", some r, none⟩⟩ w).2.sentNow =
      w.sentNow ++
        (if r.is_complete then [("כל הכבוד 🥳", completionText r)] else [])) := by
  have hoc : oldIsComplete none = false := rfl
  by_cases hc : r.is_complete = true
  · have hplan : (updatePlan r none).sendCompletion = true := by
      simp [updatePlan, hc, hoc]
    have hw2 := sendCompletion_shape r w hp
    obtain ⟨w', hall, hp', hs', htasks', hnow', hsn', _⟩ :=
      reconcileAll_ok (updatePlan r none).dates (sendCompletionNotification r w)
        (by simp [hw2, hp]) (by simp [hw2, hs])
    have hhandle : handleRequest ⟨"POST", some ⟨EventType.UPDATE, "tasks", some r, none⟩⟩ w =
        (⟨200, RespBody.success⟩, w') := by
      simp [handleRequest, dispatch, hplan, hall]
    refine ⟨⟨w', hhandle⟩, by simp [hplan, hc], ?_, ?_, ?_⟩
    · intro d hd
      simp [updatePlan, hc, hoc, hd]
    · intro hd
      simp [updatePlan, hc, hoc, hd]
    · rw [hhandle]
      simp only [hc, if_true]
      rw [hsn', hw2]
  · have hc' : r.is_complete = false := by simpa using hc
    have hplan : (updatePlan r none).sendCompletion = false := by
      simp [updatePlan, hc', hoc]
    obtain ⟨w', hall, hp', hs', htasks', hnow', hsn', _⟩ :=
      reconcileAll_ok (updatePlan r none).dates w hp hs
    have hhandle : handleRequest ⟨"POST", some ⟨EventType.UPDATE, "tasks", some r, none⟩⟩ w =
        (⟨200, RespBody.success⟩, w') := by
      simp [handleRequest, dispatch, hplan, hall]
    refine ⟨⟨w', hhandle⟩, by simp [hplan, hc'], ?_, ?_, ?_⟩
    · intro d hd
      simp [updatePlan, hc', hoc, hd, dueDiffers, titleOrAssigneeDiffers, addDate]
    · intro hd
      simp [updatePlan, hc', hoc, hd, dueDiffers]
    · rw [hhandle]
      simp only [hc', if_false]
      simpa using hsn'

theorem null_old_snapshot_witness :
    (sampleWorld.provOracle = [] ∧ sampleWorld.storeOracle = []) ∧
    (∃ w', handleRequest
        ⟨"POST", some ⟨EventType.UPDATE, "tasks", some sampleTask, none⟩⟩
        sampleWorld = (⟨200, RespBody.success⟩, w')) :=
  ⟨⟨rfl, rfl⟩, (null_old_snapshot sampleTask sampleWorld rfl rfl).1⟩

theorem takeStore_no_throw (w : World) (h : storeThrowFree w) :
    (takeStore w).1 ≠ Outcome.thrown ∧ storeThrowFree (takeStore w).2 := by
  unfold storeThrowFree takeStore at *
  cases hw : w.storeOracle with
  | nil => simp [hw]
  | cons o rest =>
    rw [hw] at h
    simp only [List.mem_cons, not_or] at h
    simp only [hw]
    exact ⟨fun he => h.1 he.symm, h.2⟩

theorem send_storeOracle (title body : String) (sa : Option Int) (w : World) :
    (sendNotification title body sa w).2.storeOracle = w.storeOracle := by
  rcases sa with _ | t
  · cases hpo : w.provOracle with
    | nil => simp [sendNotification, takeProv, hpo]
    | cons o rest => cases o <;> simp [sendNotification, takeProv, hpo]
  · by_cases hle : t ≤ w.now
    · simp [sendNotification, hle]
    · cases hpo : w.provOracle with
      | nil => simp [sendNotification, takeProv, hpo, hle]
      | cons o rest => cases o <;> simp [sendNotification, takeProv, hpo, hle]

theorem cancel_storeOracle (id : Nat) (w : World) :
    (cancelOneSignalNotification id w).storeOracle = w.storeOracle := by
  cases hpo : w.provOracle with
  | nil => simp [cancelOneSignalNotification, takeProv, hpo]
  | cons o rest => cases o <;> simp [cancelOneSignalNotification, takeProv, hpo]

theorem foldl_cancel_storeOracle (rows : List NotifRecord) (w : World) :
    (rows.foldl (fun w r => cancelOneSignalNotification r.notification_id w) w).storeOracle
      = w.storeOracle := by
  induction rows generalizing w with
  | nil => rfl
  | cons r rs ih => rw [List.foldl_cons, ih, cancel_storeOracle]

theorem storeNotificationId_no_throw (d : Int) (id : Nat) (tag : String) (w : World)
    (h : storeThrowFree w) :
    ∃ w', storeNotificationId d id tag w = Except.ok w' ∧ storeThrowFree w' := by
  obtain ⟨h1, h2⟩ := takeStore_no_throw w h
  rcases htk : takeStore w with ⟨o, w2⟩
  rw [htk] at h1 h2
  simp only [storeNotificationId, htk]
  cases o with
  | ok => exact ⟨_, rfl, h2⟩
  | httpErr => exact ⟨_, rfl, h2⟩
  | thrown => exact absurd rfl h1

theorem maybeStore_no_throw (d : Int) (tag : String) (idOpt : Option Nat) (w : World)
    (h : storeThrowFree w) :
    ∃ w', maybeStore d idOpt tag w = Except.ok w' ∧ storeThrowFree w' := by
  cases idOpt with
  | none => exact ⟨w, rfl, h⟩
  | some id => exact storeNotificationId_no_throw d id tag w h

theorem getTasksForDate_no_throw (d : Int) (w : World) (h : storeThrowFree w) :
    ∃ ts w', getTasksForDate d w = Except.ok (ts, w') ∧ storeThrowFree w' := by
  obtain ⟨h1, h2⟩ := takeStore_no_throw w h
  rcases htk : takeStore w with ⟨o, w2⟩
  rw [htk] at h1 h2
  simp only [getTasksForDate, htk]
  cases o with
  | ok => exact ⟨_, _, rfl, h2⟩
  | httpErr => exact ⟨_, _, rfl, h2⟩
  | thrown => exact absurd rfl h1

theorem cancelAllForDate_no_throw (d : Int) (w : World) (h : storeThrowFree w) :
    ∃ w', cancelAllForDate d w = Except.ok w' ∧ storeThrowFree w' := by
  obtain ⟨h1, h2⟩ := takeStore_no_throw w h
  rcases htk : takeStore w with ⟨o, w2⟩
  rw [htk] at h1 h2
  simp only [cancelAllForDate, htk]
  cases o with
  | thrown => exact absurd rfl h1
  | httpErr => exact ⟨w2, rfl, h2⟩
  | ok =>
    by_cases hlen : (w2.store.filter (recordMatchesDate d)).length > 0
    · simp only [if_pos hlen]
      have h3 : storeThrowFree ((w2.store.filter (recordMatchesDate d)).foldl
          (fun w r => cancelOneSignalNotification r.notification_id w) w2) := by
        unfold storeThrowFree
        rw [foldl_cancel_storeOracle]
        exact h2
      obtain ⟨h4, h5⟩ := takeStore_no_throw _ h3
      rcases htk2 : takeStore ((w2.store.filter (recordMatchesDate d)).foldl
          (fun w r => cancelOneSignalNotification r.notification_id w) w2) with ⟨o2, w4⟩
      rw [htk2] at h4 h5
      simp only [htk2]
      cases o2 with
      | thrown => exact absurd rfl h4
      | httpErr => exact ⟨w4, rfl, h5⟩
      | ok => exact ⟨_, rfl, h5⟩
    · simp only [if_neg hlen]
      exact ⟨w2, rfl, h2⟩

theorem reschedule_no_throw (d : Int) (w : World) (h : storeThrowFree w) :
    ∃ w', rescheduleRemindersForDate d w = Except.ok w' ∧ storeThrowFree w' := by
  obtain ⟨w1, hc1, h1⟩ := cancelAllForDate_no_throw d w h
  obtain ⟨ts, w2, hg, h2⟩ := getTasksForDate_no_throw d w1 h1
  simp only [rescheduleRemindersForDate, hc1, hg]
  by_cases hts : ts.length = 0
  · simp only [if_pos hts]
    exact ⟨w2, rfl, h2⟩
  · simp only [if_neg hts]
    have h3 : storeThrowFree (sendNotification "הכנות למחר" ("מחר, " ++ buildSummary ts)
        (some (israelTime (d - 1) 21 0)) w2).2 := by
      unfold storeThrowFree
      rw [send_storeOracle]
      exact h2
    obtain ⟨w4, hm1, h4⟩ := maybeStore_no_throw d "evening-before"
      (sendNotification "הכנות למחר" ("מחר, " ++ buildSummary ts)
        (some (israelTime (d - 1) 21 0)) w2).1
      (sendNotification "הכנות למחר" ("מחר, " ++ buildSummary ts)
        (some (israelTime (d - 1) 21 0)) w2).2 h3
    rw [hm1]
    simp only []
    have h5 : storeThrowFree (sendNotification "צהריים טובים מיילאבה ☀️"
        ("היום, " ++ buildSummary ts) (some (israelTime d 10 0)) w4).2 := by
      unfold storeThrowFree
      rw [send_storeOracle]
      exact h4
    obtain ⟨w6, hm2, h6⟩ := maybeStore_no_throw d "morning-of"
      (sendNotification "צהריים טובים מיילאבה ☀️" ("היום, " ++ buildSummary ts)
        (some (israelTime d 10 0)) w4).1
      (sendNotification "צהריים טובים מיילאבה ☀️" ("היום, " ++ buildSummary ts)
        (some (israelTime d 10 0)) w4).2 h5
    rw [hm2]
    simp only []
    have h7 : storeThrowFree (sendNotification "תזכורת אחרונה להיום!! 🔔"
        ("היום, " ++ buildSummary ts) (some (israelTime d 18 30)) w6).2 := by
      unfold storeThrowFree
      rw [send_storeOracle]
      exact h6
    exact maybeStore_no_throw d "evening-of"
      (sendNotification "תזכורת אחרונה להיום!! 🔔" ("היום, " ++ buildSummary ts)
        (some (israelTime d 18 30)) w6).1
      (sendNotification "תזכורת אחרונה להיום!! 🔔" ("היום, " ++ buildSummary ts)
        (some (israelTime d 18 30)) w6).2 h7

theorem reconcileAll_no_throw (dates : List Int) (w : World) (h : storeThrowFree w) :
    ∃ w', reconcileAll dates w = Except.ok w' ∧ storeThrowFree w' := by
  induction dates generalizing w with
  | nil => exact ⟨w, rfl, h⟩
  | cons d rest ih =>
    obtain ⟨w1, hr, h1⟩ := reschedule_no_throw d w h
    obtain ⟨w', hall, h'⟩ := ih w1 h1
    exact ⟨w', by simp [reconcileAll, hr, hall], h'⟩

theorem sendCompletion_storeOracle (task : Task) (w : World) :
    (sendCompletionNotification task w).storeOracle = w.storeOracle := by
  unfold sendCompletionNotification
  rw [send_storeOracle]

theorem dispatch_no_throw (p : WebhookPayload) (w : World) (h : storeThrowFree w) :
    ∃ w', dispatch p w = Except.ok w' := by
  cases htype : p.type with
  | INSERT =>
    obtain ⟨w', hr, _⟩ := reconcileAll_no_throw (insertDates p.record) w h
    exact ⟨w', by simp [dispatch, htype, hr]⟩
  | DELETE =>
    obtain ⟨w', hr, _⟩ := reconcileAll_no_throw (deleteDates p.old_record) w h
    exact ⟨w', by simp [dispatch, htype, hr]⟩
  | UPDATE =>
    cases hrec : p.record with
    | none => exact ⟨w, by simp [dispatch, htype, hrec]⟩
    | some r =>
      by_cases hcomp : (updatePlan r p.old_record).sendCompletion
      · have h2 : storeThrowFree (sendCompletionNotification r w) := by
          unfold storeThrowFree
          rw [sendCompletion_storeOracle]
          exact h
        obtain ⟨w', hr, _⟩ :=
          reconcileAll_no_throw (updatePlan r p.old_record).dates
            (sendCompletionNotification r w) h2
        exact ⟨w', by simp [dispatch, htype, hrec, hcomp, hr]⟩
      · obtain ⟨w', hr, _⟩ :=
          reconcileAll_no_throw (updatePlan r p.old_record).dates w h
        exact ⟨w', by simp [dispatch, htype, hrec, hcomp, hr]⟩

/-- C4 counterexample: one thrown tracking-store call (the GET inside
`cancelAllForDate`, with every provider call left to succeed) aborts
the reconciliation and the whole dispatch: the handler answers 500
rather than the normal-completion response, refuting the claim that a
failure of any single tracking-store call is caught at its call site
and degraded to a no-op. -/
theorem failure_containment_counterexample :
    (handleRequest ⟨"POST", some ⟨EventType.INSERT, "tasks", some sampleTask, none⟩⟩
      { sampleWorld with storeOracle := [Outcome.thrown] }).1 =
    ⟨500, RespBody.error "fetch failed"⟩ := by decide

/-- C4 (amended): for every parsed change event, failures of provider
calls — thrown requests or failed/malformed OneSignal responses, in any
combination — are contained at their call sites, and tracking-store
responses that are non-2xx or of unexpected shape degrade to no-ops;
as long as no tracking-store call throws, reconciliation of every
affected date runs to completion and the handler returns the
normal-completion response.  (A thrown tracking-store call, by the
counterexample, instead surfaces as the top-level 500.) -/
theorem failure_containment_amended (req : Request) (w : World) (p : WebhookPayload)
    (hm : req.method = "POST") (hb : req.body = some p)
    (hsf : Outcome.thrown ∉ w.storeOracle) :
    (handleRequest req w).1 = ⟨200, RespBody.success⟩ := by
  obtain ⟨w', hd⟩ := dispatch_no_throw p w hsf
  simp [handleRequest, hm, hb, hd]

theorem failure_containment_amended_witness :
    (("POST" : String) = "POST" ∧
      (⟨"POST", some ⟨EventType.INSERT, "tasks", some sampleTask, none⟩⟩ : Request).body =
        some ⟨EventType.INSERT, "tasks", some sampleTask, none⟩ ∧
      Outcome.thrown ∉
        ({ sampleWorld with
            provOracle := [Outcome.thrown, Outcome.httpErr],
            storeOracle := [Outcome.httpErr] } : World).storeOracle) ∧
    (handleRequest ⟨"POST", some ⟨EventType.INSERT, "tasks", some sampleTask, none⟩⟩
      { sampleWorld with
          provOracle := [Outcome.thrown, Outcome.httpErr],
          storeOracle := [Outcome.httpErr] }).1 = ⟨200, RespBody.success⟩ :=
  ⟨⟨rfl, rfl, by decide⟩,
    failure_containment_amended
      ⟨"POST", some ⟨EventType.INSERT, "tasks", some sampleTask, none⟩⟩
      { sampleWorld with
          provOracle := [Outcome.thrown, Outcome.httpErr],
          storeOracle := [Outcome.httpErr] }
      ⟨EventType.INSERT, "tasks", some sampleTask, none⟩ rfl rfl (by decide)⟩

end Webhook
